import Mathlib

/-!
Verification of the SketchRNN session wrapper (src/SketchRNN/index.js).

The wrapper drives an external recurrent sketch model one stroke at a time.
We embed the wrapper's data model and operations shallowly:

* JavaScript values that flow through the codec are modelled by `JSVal`
  (numbers as rationals, strings, booleans, and `undefined`); strict
  equality `===` on these variants is structural equality.
* The internal 5-tuple `[dx, dy, down, up, end]` is `Internal5`.
* The public stroke `{dx, dy, pen?}` is `Stroke`; an absent `pen` field is
  `JSVal.undef`, matching property access on a JS object without the key.
* The external magenta model is opaque: `MSModel R P` packages its
  primitives (`zeroInput`, `zeroState`, `updateStrokes`, `update`,
  `getPDF`, `sample`) as abstract functions over abstract recurrent-state
  and distribution types `R`, `P`.
* A session (one `SketchRNN` instance) is `Session R P`: the model, the
  current `penState`, the lazily created `rnnState`, the readiness outcome
  of the asynchronous load (`ready`), and — as the observable trace of the
  external side effect — the list of arguments passed to the model's
  `setPixelFactor` so far (`pixelCalls`).
-/

inductive JSVal where
  | num (q : ℚ)
  | str (s : String)
  | boolv (b : Bool)
  | undef
deriving DecidableEq

/-- The model's internal 5-tuple `[dx, dy, down, up, end]`: the array
format consumed and produced by the external model primitives.  Field
`xi` is array index `i`. -/
structure Internal5 where
  x0 : JSVal
  x1 : JSVal
  x2 : JSVal
  x3 : JSVal
  x4 : JSVal
deriving DecidableEq

/-- The public stroke object `{dx, dy, pen}`; `pen := JSVal.undef` models
an object on which the `pen` property is absent. -/
structure Stroke where
  dx : JSVal
  dy : JSVal
  pen : JSVal
deriving DecidableEq

/-- The encoding done inline in `generate` (index.js lines 95-100): each
seed stroke is mapped to `[s.dx, s.dy, down, up, end]`, where each flag is
`1` exactly when `s.pen === 'down' | 'up' | 'end'` respectively. -/
def encodeStroke (s : Stroke) : Internal5 :=
  let up : JSVal := if s.pen = JSVal.str "up" then JSVal.num 1 else JSVal.num 0
  let down : JSVal := if s.pen = JSVal.str "down" then JSVal.num 1 else JSVal.num 0
  let endFlag : JSVal := if s.pen = JSVal.str "end" then JSVal.num 1 else JSVal.num 0
  ⟨s.dx, s.dy, down, up, endFlag⟩

/-- The decoding done inline in `generateInternal` (index.js lines 58-69):
`result = {dx: p[0], dy: p[1]}`, then `pen` is set to `'down'` if
`p[2] === 1`, else `'up'` if `p[3] === 1`, else `'end'` if `p[4] === 1`,
else left absent. -/
def decodeStroke (v : Internal5) : Stroke :=
  { dx := v.x0
    dy := v.x1
    pen :=
      if v.x2 = JSVal.num 1 then JSVal.str "down"
      else if v.x3 = JSVal.num 1 then JSVal.str "up"
      else if v.x4 = JSVal.num 1 then JSVal.str "end"
      else JSVal.undef }

/-- The session defaults set in the constructor (index.js lines 33-36). -/
structure Defaults where
  temperature : ℚ
  pixelFactor : ℚ
deriving DecidableEq

def sketchDefaults : Defaults := { temperature := 65/100, pixelFactor := 3 }

/-- The options object accepted by `generate`; a field is `none` when the
caller omitted it (so `+options.temperature` evaluates to `NaN`, which is
falsy, like a supplied `0`). -/
structure GenOptions where
  temperature : Option ℚ := none
  pixelFactor : Option ℚ := none
deriving DecidableEq

/-- `+options.x || dflt` (index.js lines 43-44): a supplied numeric value
is used when truthy; `0` and an absent field (`NaN`) are falsy and fall
back to the default. -/
def resolveNum (o : Option ℚ) (dflt : ℚ) : ℚ :=
  match o with
  | some t => if t = 0 then dflt else t
  | none => dflt

/-- The external magenta model's primitives, opaque to the wrapper:
abstract functions over an abstract recurrent-state type `R` and an
abstract distribution type `P`. -/
structure MSModel (R P : Type) where
  zeroInput : Internal5
  zeroState : R
  updateStrokes : List Internal5 → R → R
  update : Internal5 → R → R
  getPDF : R → ℚ → P
  sample : P → Internal5

/-- One `SketchRNN` instance.  `ready` is the settled outcome of the
asynchronous initialization that `await this.ready` observes.
`pixelCalls` records, in order, every argument the session has passed to
the external model's `setPixelFactor` — the observable trace of that
side effect on the model. -/
structure Session (R P : Type) where
  model : MSModel R P
  penState : Internal5
  rnnState : Option R
  ready : Except String Unit
  pixelCalls : List ℚ

variable {R P : Type}

/-- The constructor (index.js lines 28-40): sets the defaults, stores the
model, initializes `penState` to `model.zeroInput()`, starts the load
(`ready`), and does not touch `rnnState` (so it is absent). -/
def mkSession (m : MSModel R P) (init : Except String Unit) : Session R P :=
  { model := m, penState := m.zeroInput, rnnState := none
    ready := init, pixelCalls := [] }

/-- The recurrent state `generateInternal` works on after the lazy-init
check (index.js lines 47-50): the existing `rnnState`, or a fresh
`model.zeroState()` when it was absent. -/
def lazyState (s : Session R P) : R :=
  s.rnnState.getD s.model.zeroState

/-- The recurrent state after the optional seeding step (index.js lines
52-54): when the encoded seed list is non-empty it is passed, whole and
in order, to the model's `updateStrokes`; otherwise the state is
untouched. -/
def seededState (s : Session R P) (strokes : List Internal5) : R :=
  if strokes.isEmpty then lazyState s
  else s.model.updateStrokes strokes (lazyState s)

/-- The result of a successful `generateInternal` call: the mutated
session and the returned public stroke. -/
structure GenReturn (R P : Type) where
  session : Session R P
  result : Stroke

/-- `generateInternal(options, strokes)` (index.js lines 42-70):
resolve `temperature`/`pixelFactor` by truthiness, await readiness
(propagating a load failure), lazily create `rnnState` and apply the
pixel factor to the model on first use, fold any seed strokes into the
state, perform one `update` with the current `penState`, compute the PDF
at the resolved temperature, sample the new `penState`, and return its
decoding. -/
def generateInternal (s : Session R P) (options : GenOptions)
    (strokes : List Internal5) : Except String (GenReturn R P) :=
  let temperature := resolveNum options.temperature sketchDefaults.temperature
  let pixelFactor := resolveNum options.pixelFactor sketchDefaults.pixelFactor
  match s.ready with
  | Except.error e => Except.error e
  | Except.ok _ =>
    let pixelCalls :=
      if s.rnnState.isSome then s.pixelCalls else s.pixelCalls ++ [pixelFactor]
    let r2 := s.model.update s.penState (seededState s strokes)
    let pen := s.model.sample (s.model.getPDF r2 temperature)
    Except.ok
      { session :=
          { s with rnnState := some r2, penState := pen, pixelCalls := pixelCalls }
        result := decodeStroke pen }

/-- `generate(options, seedStrokes)` (index.js lines 72-101), after
overload resolution has produced an options object and a seed array: each
seed stroke is encoded by the inline map, and `generateInternal` is
invoked on the encoded list. -/
def generate (s : Session R P) (options : GenOptions)
    (seedStrokes : List Stroke) : Except String (GenReturn R P) :=
  generateInternal s options (seedStrokes.map encodeStroke)

/-- `reset()` (index.js lines 104-109): `penState` becomes
`model.zeroInput()`; `rnnState` is replaced by `model.zeroState()` only
when it is already present (an absent `rnnState` is falsy, a state object
is truthy).  It is synchronous and never consults `ready`. -/
def reset (s : Session R P) : Session R P :=
  { s with
    penState := s.model.zeroInput
    rnnState :=
      match s.rnnState with
      | some _ => some s.model.zeroState
      | none => none }

/-- Running a list of `generate` calls in order; a call that fails (the
readiness promise was rejected) leaves the session unchanged, since the
rejection happens before any state mutation. -/
def runGenerates (s : Session R P) : List (GenOptions × List Internal5) → Session R P
  | [] => s
  | (o, ss) :: rest =>
    match generateInternal s o ss with
    | Except.ok g => runGenerates g.session rest
    | Except.error _ => runGenerates s rest

/-- A concrete single-step transition, used to instantiate the abstract
model in witnesses: the recurrent state is simply a step counter. -/
def updStep (_ : Internal5) (r : Nat) : Nat := r + 1

/-- A concrete instantiation of the external model over `R = P = Nat`,
whose `updateStrokes` is by construction the left fold of its single
observation update — the behavior the spec ascribes to the external
state-update primitive. -/
def foldModel : MSModel Nat Nat where
  zeroInput := ⟨JSVal.num 0, JSVal.num 0, JSVal.num 0, JSVal.num 0, JSVal.num 0⟩
  zeroState := 0
  updateStrokes := fun ss r => ss.foldl (fun r v => updStep v r) r
  update := updStep
  getPDF := fun r _ => r
  sample := fun _ => ⟨JSVal.num 2, JSVal.num 3, JSVal.num 0, JSVal.num 1, JSVal.num 0⟩

/-- The stroke `foldModel.sample` always produces. -/
def penConst : Internal5 :=
  ⟨JSVal.num 2, JSVal.num 3, JSVal.num 0, JSVal.num 1, JSVal.num 0⟩

/-- A freshly constructed session over `foldModel` whose load succeeded. -/
def ws : Session Nat Nat := mkSession foldModel (Except.ok ())

/-- The value of the first default-options `generate` call on `ws`. -/
def wg0 : GenReturn Nat Nat :=
  { session :=
      { model := foldModel, penState := penConst, rnnState := some 1
        ready := Except.ok (), pixelCalls := [3] }
    result := ⟨JSVal.num 2, JSVal.num 3, JSVal.str "up"⟩ }

/-- The value of a second default-options call on `wg0.session`, and
equally of a first call on `ws` seeded with one stroke. -/
def wg1 : GenReturn Nat Nat :=
  { session := { wg0.session with rnnState := some 2 }
    result := ⟨JSVal.num 2, JSVal.num 3, JSVal.str "up"⟩ }

/-- A well-formed seed stroke used in witnesses. -/
def seedW : List Stroke := [⟨JSVal.num 1, JSVal.num 1, JSVal.undef⟩]

/-- The value of a first call on `ws` seeded with two strokes. -/
def wg2 : GenReturn Nat Nat :=
  { session := { wg0.session with rnnState := some 3 }
    result := ⟨JSVal.num 2, JSVal.num 3, JSVal.str "up"⟩ }

/-- Evaluation lemma: on a session whose readiness promise has resolved,
`generateInternal` succeeds, and the returned session and stroke are the
exact composition of the model primitives prescribed in the source. -/
theorem generateInternal_ok (s : Session R P) (o : GenOptions)
    (ss : List Internal5) (h : s.ready = Except.ok ()) :
    generateInternal s o ss = Except.ok
      { session :=
          { s with
            rnnState := some (s.model.update s.penState (seededState s ss))
            penState := s.model.sample (s.model.getPDF
              (s.model.update s.penState (seededState s ss))
              (resolveNum o.temperature sketchDefaults.temperature))
            pixelCalls :=
              if s.rnnState.isSome then s.pixelCalls
              else s.pixelCalls ++ [resolveNum o.pixelFactor sketchDefaults.pixelFactor] }
        result := decodeStroke (s.model.sample (s.model.getPDF
          (s.model.update s.penState (seededState s ss))
          (resolveNum o.temperature sketchDefaults.temperature))) } := by
  unfold generateInternal
  rw [h]

/-- A successful `generateInternal` call always leaves `rnnState` present,
never changes `ready`, and on a session past its first call (state already
present) never touches the model's pixel factor. -/
theorem generateInternal_ok_inv (s : Session R P) (o : GenOptions)
    (ss : List Internal5) (g : GenReturn R P)
    (hg : generateInternal s o ss = Except.ok g) :
    g.session.rnnState.isSome = true ∧
    g.session.ready = s.ready ∧
    (s.rnnState.isSome = true → g.session.pixelCalls = s.pixelCalls) := by
  unfold generateInternal at hg
  cases hready : s.ready with
  | error e => rw [hready] at hg; cases hg
  | ok u =>
    rw [hready] at hg
    injection hg with h
    subst h
    refine ⟨rfl, rfl, fun hsome => ?_⟩
    simp [hsome]

/-- Once `rnnState` is present, any further sequence of `generate` calls
leaves `pixelCalls` untouched and `rnnState` present. -/
theorem runGenerates_pixelCalls (calls : List (GenOptions × List Internal5))
    (s : Session R P) (hsome : s.rnnState.isSome = true) :
    (runGenerates s calls).pixelCalls = s.pixelCalls ∧
    (runGenerates s calls).rnnState.isSome = true := by
  induction calls generalizing s with
  | nil => exact ⟨rfl, hsome⟩
  | cons c rest ih =>
    obtain ⟨o, ss⟩ := c
    simp only [runGenerates]
    cases hr : generateInternal s o ss with
    | error e => exact ih s hsome
    | ok g =>
      obtain ⟨hg1, _, hg3⟩ := generateInternal_ok_inv s o ss g hr
      obtain ⟨ih1, ih2⟩ := ih g.session hg1
      exact ⟨ih1.trans (hg3 hsome), ih2⟩

/-- C1: every `generate` call, after awaiting readiness and any seeding,
performs exactly one model state update using the session's current
`penState` (not a seed stroke) against the recurrent state, computes one
probability distribution from the updated recurrent state at the resolved
temperature, samples exactly one internal 5-tuple, stores it as the new
`penState`, and returns its decoding as the public stroke. -/
theorem generate_single_step (s : Session R P) (o : GenOptions)
    (strokes : List Internal5) (g : GenReturn R P)
    (hready : s.ready = Except.ok ())
    (hg : generateInternal s o strokes = Except.ok g) :
    g.session.rnnState = some (s.model.update s.penState (seededState s strokes)) ∧
    g.session.penState = s.model.sample (s.model.getPDF
      (s.model.update s.penState (seededState s strokes))
      (resolveNum o.temperature sketchDefaults.temperature)) ∧
    g.result = decodeStroke g.session.penState := by
  rw [generateInternal_ok s o strokes hready] at hg
  injection hg with h
  subst h
  exact ⟨rfl, rfl, rfl⟩

/-- Witness for C1 at a concrete model, fresh session and no seed. -/
theorem generate_single_step_witness :
    wg0.session.rnnState = some (ws.model.update ws.penState (seededState ws [])) ∧
    wg0.session.penState = ws.model.sample (ws.model.getPDF
      (ws.model.update ws.penState (seededState ws []))
      (resolveNum (GenOptions.mk none none).temperature sketchDefaults.temperature)) ∧
    wg0.result = decodeStroke wg0.session.penState :=
  generate_single_step ws ⟨none, none⟩ [] wg0 rfl rfl

/-- C2: a session's `rnnState` is absent before the first `generate` call
and present after it; `penState` is defined (as the model's zero input)
from construction; the model's pixel-factor setter is called exactly once
per session, at the first `generate` call, with that call's resolved
pixel factor; pixel factors supplied to later calls are accepted but
never reach the model. -/
theorem session_state_invariants (m : MSModel R P) (init : Except String Unit)
    (o1 o2 : GenOptions) (ss1 ss2 : List Internal5)
    (g1 g2 : GenReturn R P) (calls : List (GenOptions × List Internal5))
    (hinit : init = Except.ok ())
    (h1 : generateInternal (mkSession m init) o1 ss1 = Except.ok g1)
    (h2 : generateInternal g1.session o2 ss2 = Except.ok g2) :
    (mkSession m init).rnnState = none ∧
    (mkSession m init).penState = m.zeroInput ∧
    g1.session.rnnState.isSome = true ∧
    g1.session.pixelCalls = [resolveNum o1.pixelFactor sketchDefaults.pixelFactor] ∧
    g2.session.pixelCalls = g1.session.pixelCalls ∧
    (runGenerates g1.session calls).pixelCalls =
      [resolveNum o1.pixelFactor sketchDefaults.pixelFactor] := by
  subst hinit
  obtain ⟨hg1some, -, -⟩ := generateInternal_ok_inv _ o1 ss1 g1 h1
  rw [generateInternal_ok (mkSession m (Except.ok ())) o1 ss1 rfl] at h1
  injection h1 with h1
  subst h1
  obtain ⟨-, -, hpix2⟩ := generateInternal_ok_inv _ o2 ss2 g2 h2
  refine ⟨rfl, rfl, rfl, rfl, hpix2 rfl, ?_⟩
  exact (runGenerates_pixelCalls calls _ hg1some).1

/-- Witness for C2: two concrete calls plus a further trace of calls. -/
theorem session_state_invariants_witness :
    (mkSession foldModel (Except.ok ())).rnnState = none ∧
    (mkSession foldModel (Except.ok ())).penState = foldModel.zeroInput ∧
    wg0.session.rnnState.isSome = true ∧
    wg0.session.pixelCalls =
      [resolveNum (GenOptions.mk none none).pixelFactor sketchDefaults.pixelFactor] ∧
    wg1.session.pixelCalls = wg0.session.pixelCalls ∧
    (runGenerates wg0.session [(⟨none, some 9⟩, [])]).pixelCalls =
      [resolveNum (GenOptions.mk none none).pixelFactor sketchDefaults.pixelFactor] :=
  session_state_invariants foldModel (Except.ok ()) ⟨none, none⟩ ⟨none, none⟩
    [] [] wg0 wg1 [(⟨none, some 9⟩, [])] rfl rfl rfl

/-- C3: when the external state-update primitive applies its single
observation update to each stroke in order (left fold), a `generate` call
with a non-empty seed folds each encoded seed stroke into the recurrent
state in order, left-to-right; seeding leaves `penState` untouched (the
single forward update still consumes the pre-call `penState`), emits no
output, and the call returns exactly one sampled stroke. -/
theorem seeding_in_order (s : Session R P) (o : GenOptions)
    (seed : List Stroke) (g : GenReturn R P)
    (hfold : ∀ ss r, s.model.updateStrokes ss r =
      ss.foldl (fun r v => s.model.update v r) r)
    (hne : seed ≠ [])
    (hready : s.ready = Except.ok ())
    (hg : generate s o seed = Except.ok g) :
    g.session.rnnState = some (s.model.update s.penState
      ((seed.map encodeStroke).foldl (fun r v => s.model.update v r) (lazyState s))) ∧
    g.session.penState = s.model.sample (s.model.getPDF
      (s.model.update s.penState
        ((seed.map encodeStroke).foldl (fun r v => s.model.update v r) (lazyState s)))
      (resolveNum o.temperature sketchDefaults.temperature)) ∧
    g.result = decodeStroke g.session.penState := by
  unfold generate at hg
  rw [generateInternal_ok s o _ hready] at hg
  injection hg with h
  subst h
  have hse : seededState s (seed.map encodeStroke) =
      (seed.map encodeStroke).foldl (fun r v => s.model.update v r) (lazyState s) := by
    cases seed with
    | nil => exact absurd rfl hne
    | cons a as => simp [seededState, hfold]
  exact ⟨by rw [hse], by rw [hse], rfl⟩

/-- Witness for C3 at the concrete fold model and a one-stroke seed. -/
theorem seeding_in_order_witness :
    wg1.session.rnnState = some (ws.model.update ws.penState
      ((seedW.map encodeStroke).foldl (fun r v => ws.model.update v r) (lazyState ws))) ∧
    wg1.session.penState = ws.model.sample (ws.model.getPDF
      (ws.model.update ws.penState
        ((seedW.map encodeStroke).foldl (fun r v => ws.model.update v r) (lazyState ws)))
      (resolveNum (GenOptions.mk none none).temperature sketchDefaults.temperature)) ∧
    wg1.result = decodeStroke wg1.session.penState :=
  seeding_in_order ws ⟨none, none⟩ seedW wg1 (fun ss r => rfl)
    (by simp [seedW]) rfl rfl

/-- C4: `reset` sets `penState` to the model's zero input; it replaces
`rnnState` with a fresh zero state only when one exists and leaves it
absent before the first `generate` call; it is idempotent; and it is a
total synchronous function that never consults the readiness outcome, so
calling it on a session that never generated cannot fail. -/
theorem reset_state (s : Session R P) :
    (reset s).penState = s.model.zeroInput ∧
    (s.rnnState = none → (reset s).rnnState = none) ∧
    (∀ r : R, s.rnnState = some r → (reset s).rnnState = some s.model.zeroState) ∧
    reset (reset s) = reset s ∧
    (reset s).ready = s.ready ∧
    (∀ q : Except String Unit,
      reset { s with ready := q } = { reset s with ready := q }) := by
  refine ⟨rfl, ?_, ?_, ?_, rfl, ?_⟩
  · intro h; simp [reset, h]
  · intro r h; simp [reset, h]
  · cases h : s.rnnState <;> simp [reset, h]
  · intro q; cases h : s.rnnState <;> simp [reset, h]

/-- Witness for C4 on a never-generated session with a failed load:
`penState` is zeroed, `rnnState` stays absent, and the session with a
rejected readiness promise resets the same way. -/
theorem reset_state_witness :
    (reset (mkSession foldModel (Except.error "load failed"))).penState =
      foldModel.zeroInput ∧
    (reset (mkSession foldModel (Except.error "load failed"))).rnnState = none ∧
    reset { ws with ready := Except.error "x" } =
      { reset ws with ready := Except.error "x" } :=
  ⟨(reset_state (mkSession foldModel (Except.error "load failed"))).1,
   (reset_state (mkSession foldModel (Except.error "load failed"))).2.1 rfl,
   (reset_state ws).2.2.2.2.2 (Except.error "x")⟩

/-- C5: `temperature` resolves to the supplied numeric value when it is
truthy and to the default 0.65 otherwise; `pixelFactor` analogously with
default 3.0; in particular a supplied value of exactly 0 is treated as
absent, so `generate` with `{temperature: 0}` behaves identically to
`generate` with `{}`. -/
theorem option_truthy_resolution (t : ℚ) (s : Session R P)
    (seed : List Stroke) (ht : t ≠ 0) :
    resolveNum (some t) sketchDefaults.temperature = t ∧
    resolveNum none sketchDefaults.temperature = 65/100 ∧
    resolveNum (some 0) sketchDefaults.temperature = 65/100 ∧
    resolveNum (some t) sketchDefaults.pixelFactor = t ∧
    resolveNum none sketchDefaults.pixelFactor = 3 ∧
    resolveNum (some 0) sketchDefaults.pixelFactor = 3 ∧
    generate s { temperature := some 0 } seed = generate s {} seed :=
  ⟨by simp [resolveNum, ht], rfl, rfl, by simp [resolveNum, ht], rfl, rfl, rfl⟩

/-- Witness for C5 at `t = 2` on a concrete session. -/
theorem option_truthy_resolution_witness :
    resolveNum (some 2) sketchDefaults.temperature = 2 ∧
    resolveNum none sketchDefaults.temperature = 65/100 ∧
    resolveNum (some 0) sketchDefaults.temperature = 65/100 ∧
    resolveNum (some 2) sketchDefaults.pixelFactor = 2 ∧
    resolveNum none sketchDefaults.pixelFactor = 3 ∧
    resolveNum (some 0) sketchDefaults.pixelFactor = 3 ∧
    generate ws { temperature := some 0 } seedW = generate ws {} seedW :=
  option_truthy_resolution 2 ws seedW (by norm_num)

/-- C6: decoding sets `dx` and `dy` from indices 0 and 1, and chooses the
pen field by strict priority down (index 2) over up (index 3) over end
(index 4); when none of the three flags is 1 the pen field is absent; in
particular a vector with both down and up flags set decodes to
`pen = "down"`. -/
theorem decode_priority (v : Internal5) :
    (decodeStroke v).dx = v.x0 ∧
    (decodeStroke v).dy = v.x1 ∧
    (v.x2 = JSVal.num 1 → (decodeStroke v).pen = JSVal.str "down") ∧
    (v.x2 ≠ JSVal.num 1 → v.x3 = JSVal.num 1 →
      (decodeStroke v).pen = JSVal.str "up") ∧
    (v.x2 ≠ JSVal.num 1 → v.x3 ≠ JSVal.num 1 → v.x4 = JSVal.num 1 →
      (decodeStroke v).pen = JSVal.str "end") ∧
    (v.x2 ≠ JSVal.num 1 → v.x3 ≠ JSVal.num 1 → v.x4 ≠ JSVal.num 1 →
      (decodeStroke v).pen = JSVal.undef) ∧
    (decodeStroke ⟨v.x0, v.x1, JSVal.num 1, JSVal.num 1, v.x4⟩).pen =
      JSVal.str "down" := by
  refine ⟨rfl, rfl, ?_, ?_, ?_, ?_, by simp [decodeStroke]⟩ <;>
    intros <;> simp [decodeStroke, *]

/-- Witness for C6: a vector with only the up flag decodes to "up". -/
theorem decode_priority_witness :
    (decodeStroke ⟨JSVal.num 5, JSVal.num 6, JSVal.num 0, JSVal.num 1,
      JSVal.num 0⟩).pen = JSVal.str "up" :=
  (decode_priority ⟨JSVal.num 5, JSVal.num 6, JSVal.num 0, JSVal.num 1,
      JSVal.num 0⟩).2.2.2.1 (by decide) (by decide)

/-- C7: encoding maps `pen = "down"` to flags `[1,0,0]`, `"up"` to
`[0,1,0]`, `"end"` to `[0,0,1]`, and an absent pen field to `[0,0,0]`,
while `dx` and `dy` pass through unchanged for every pen value. -/
theorem encode_mapping (d e p : JSVal) :
    encodeStroke ⟨d, e, JSVal.str "down"⟩ =
      ⟨d, e, JSVal.num 1, JSVal.num 0, JSVal.num 0⟩ ∧
    encodeStroke ⟨d, e, JSVal.str "up"⟩ =
      ⟨d, e, JSVal.num 0, JSVal.num 1, JSVal.num 0⟩ ∧
    encodeStroke ⟨d, e, JSVal.str "end"⟩ =
      ⟨d, e, JSVal.num 0, JSVal.num 0, JSVal.num 1⟩ ∧
    encodeStroke ⟨d, e, JSVal.undef⟩ =
      ⟨d, e, JSVal.num 0, JSVal.num 0, JSVal.num 0⟩ ∧
    (encodeStroke ⟨d, e, p⟩).x0 = d ∧
    (encodeStroke ⟨d, e, p⟩).x1 = e := by
  refine ⟨?_, ?_, ?_, ?_, rfl, rfl⟩ <;> simp [encodeStroke]

/-- C8: for every internal 5-tuple whose three pen flags are 0/1 valued
with at most one flag set to 1, decoding then re-encoding reproduces the
tuple exactly: same `dx`, `dy`, and the same one-hot or all-zero flags. -/
theorem codec_round_trip (v : Internal5)
    (h : (v.x2 = JSVal.num 0 ∧ v.x3 = JSVal.num 0 ∧ v.x4 = JSVal.num 0) ∨
         (v.x2 = JSVal.num 1 ∧ v.x3 = JSVal.num 0 ∧ v.x4 = JSVal.num 0) ∨
         (v.x2 = JSVal.num 0 ∧ v.x3 = JSVal.num 1 ∧ v.x4 = JSVal.num 0) ∨
         (v.x2 = JSVal.num 0 ∧ v.x3 = JSVal.num 0 ∧ v.x4 = JSVal.num 1)) :
    encodeStroke (decodeStroke v) = v := by
  obtain ⟨a0, a1, a2, a3, a4⟩ := v
  rcases h with ⟨h2, h3, h4⟩ | ⟨h2, h3, h4⟩ | ⟨h2, h3, h4⟩ | ⟨h2, h3, h4⟩ <;>
    (simp only at h2 h3 h4; subst h2; subst h3; subst h4;
     simp [encodeStroke, decodeStroke])

/-- Witness for C8 on the one-hot "up" vector. -/
theorem codec_round_trip_witness :
    encodeStroke (decodeStroke ⟨JSVal.num 4, JSVal.num 5, JSVal.num 0,
      JSVal.num 1, JSVal.num 0⟩) =
      ⟨JSVal.num 4, JSVal.num 5, JSVal.num 0, JSVal.num 1, JSVal.num 0⟩ :=
  codec_round_trip ⟨JSVal.num 4, JSVal.num 5, JSVal.num 0, JSVal.num 1,
    JSVal.num 0⟩ (Or.inr (Or.inr (Or.inl (by decide))))

/-- C10: a seed stroke whose pen field holds any value other than exactly
the strings "down", "up", "end" — a misspelling, a number, a boolean, or
an absent field — encodes to the all-zero flag triple, silently treated
as the implicit draw state, never rejected. -/
theorem encode_unknown_pen (d e p : JSVal)
    (h1 : p ≠ JSVal.str "down") (h2 : p ≠ JSVal.str "up")
    (h3 : p ≠ JSVal.str "end") :
    encodeStroke ⟨d, e, p⟩ = ⟨d, e, JSVal.num 0, JSVal.num 0, JSVal.num 0⟩ := by
  simp [encodeStroke, h1, h2, h3]

/-- Witness for C10: a misspelled pen tag "Down" encodes to zero flags. -/
theorem encode_unknown_pen_witness :
    encodeStroke ⟨JSVal.num 1, JSVal.num 2, JSVal.str "Down"⟩ =
      ⟨JSVal.num 1, JSVal.num 2, JSVal.num 0, JSVal.num 0, JSVal.num 0⟩ :=
  encode_unknown_pen (JSVal.num 1) (JSVal.num 2) (JSVal.str "Down")
    (by decide) (by decide) (by decide)

/-- C9 counterexample: a seed stroke with a missing `dx` (so `s.dx` reads
as `undefined`) does not make `generate` fail at the encode step: on a
concrete ready session the call succeeds, mutates the session state
(`rnnState` goes from absent to present after folding the malformed
vector in), and returns a sampled stroke. -/
theorem malformed_seed_no_failfast :
    encodeStroke ⟨JSVal.undef, JSVal.num 1, JSVal.undef⟩ =
      ⟨JSVal.undef, JSVal.num 1, JSVal.num 0, JSVal.num 0, JSVal.num 0⟩ ∧
    generate ws ⟨none, none⟩ [⟨JSVal.undef, JSVal.num 1, JSVal.undef⟩] =
      Except.ok wg1 ∧
    ws.rnnState = none ∧
    wg1.session.rnnState = some 2 :=
  ⟨rfl, rfl, rfl, rfl⟩

/-- C9 amended: on a ready session, a seed stroke missing `dx` or `dy`,
at any position in the seed sequence, is encoded with `undefined` in the
missing slot — no failure at the encode step — and the successful call
passes the whole encoded list, malformed vector included, into the
model's state update and returns a decoded sample as usual. -/
theorem malformed_seed_sampled_silently (s : Session R P) (o : GenOptions)
    (mal : Stroke) (pre post : List Stroke) (g : GenReturn R P)
    (hmal : mal.dx = JSVal.undef ∨ mal.dy = JSVal.undef)
    (hready : s.ready = Except.ok ())
    (hg : generate s o (pre ++ mal :: post) = Except.ok g) :
    ((encodeStroke mal).x0 = JSVal.undef ∨ (encodeStroke mal).x1 = JSVal.undef) ∧
    g.session.rnnState = some (s.model.update s.penState
      (s.model.updateStrokes ((pre ++ mal :: post).map encodeStroke)
        (lazyState s))) ∧
    g.result = decodeStroke g.session.penState := by
  unfold generate at hg
  rw [generateInternal_ok s o _ hready] at hg
  injection hg with h
  subst h
  have hse : seededState s ((pre ++ mal :: post).map encodeStroke) =
      s.model.updateStrokes ((pre ++ mal :: post).map encodeStroke)
        (lazyState s) := by
    cases pre <;> simp [seededState]
  exact ⟨hmal, by rw [hse], rfl⟩

/-- Witness for the C9 amended theorem at the concrete fold model, with
the malformed stroke in second position, after a well-formed one. -/
theorem malformed_seed_sampled_silently_witness :
    ((encodeStroke ⟨JSVal.undef, JSVal.num 1, JSVal.undef⟩).x0 = JSVal.undef ∨
     (encodeStroke ⟨JSVal.undef, JSVal.num 1, JSVal.undef⟩).x1 = JSVal.undef) ∧
    wg2.session.rnnState = some (ws.model.update ws.penState
      (ws.model.updateStrokes
        ((seedW ++ [(⟨JSVal.undef, JSVal.num 1, JSVal.undef⟩ : Stroke)]).map
          encodeStroke)
        (lazyState ws))) ∧
    wg2.result = decodeStroke wg2.session.penState :=
  malformed_seed_sampled_silently ws ⟨none, none⟩
    (⟨JSVal.undef, JSVal.num 1, JSVal.undef⟩ : Stroke) seedW [] wg2
    (Or.inl rfl) rfl rfl
